import Mathlib

/-!
# Verification of the skeleton-testkit orchestration core

A shallow embedding, in Lean 4, of the orchestration core of the
`skeleton-testkit` Go repository:

* the dependency lifecycle orchestrator
  (`internal/infrastructure/testcontainers/app_container.go`),
* the docker container wrapper and the lifecycle manager / port tracker
  (`internal/infrastructure/docker`),
* the health monitoring engine (`pkg/health` package, the `HealthMonitor`).

External collaborators (the container runtime, HTTP, wall clocks) are
abstracted as explicit behaviour fields: each call the code makes to a
collaborator is represented by the outcome that call would report.  Error
values are modelled structurally; time-valued bookkeeping fields (`Duration`,
`Timestamp`) that no property depends on are elided.
-/

namespace Testkit

/-- Go `error` values produced by this code base: either a structured
`container.ContainerError` (fields `Operation`, `Container`, `Message`,
`Cause`, from `internal/domain/container`), or a plain error built with
`fmt.Errorf` / returned by an external collaborator, carrying a message. -/
inductive GoError where
  | containerError (operation container message : String) (cause : Option GoError)
  | errorf (message : String)

/-- Observable calls the orchestrator makes on containers: starting or
stopping a dependency, creating / starting / stopping the primary. -/
inductive Ev where
  | depStart (id : String)
  | createPrimary
  | primaryStart
  | primaryStop
  | depStop (id : String)
deriving DecidableEq, Repr

/-- Behaviour of one dependency (`container.Container` interface value) as the
orchestrator observes it during a single `Start` or `Stop` pass: its identity,
what `IsRunning()` reports, and what `Start` / `Stop` would return if called
(`none` = nil error). -/
structure Dep where
  id : String
  isRunning : Bool
  startResult : Option GoError
  stopResult : Option GoError

/-- A `TestcontainerAppContainer`: identity, ordered dependency list, and the
outcomes of the three collaborator calls made on the primary itself
(`createContainer`'s testcontainer creation, `DockerContainer.Start`,
`DockerContainer.Stop`).  `createResult`, `primaryStartResult` and
`primaryStopResult` hold the already-wrapped error those sub-calls return
(`none` = success). -/
structure AppContainer where
  id : String
  deps : List Dep
  createResult : Option GoError
  primaryStartResult : Option GoError
  primaryStopResult : Option GoError

/-- The dependency loop of `TestcontainerAppContainer.Start`
(app_container.go lines 40-52): for each dependency in listed order, if it is
not already running, call `Start`; on the first failure return a
`ContainerError` with operation `start_dependency`, the orchestrator's id,
a message naming the failed dependency, and the dependency's error as cause.
Returns the trace of `Start` calls made and the error, if any. -/
def startDeps (selfId : String) : List Dep → List Ev × Option GoError
  | [] => ([], none)
  | d :: rest =>
    if d.isRunning then startDeps selfId rest
    else
      match d.startResult with
      | some e =>
        ([Ev.depStart d.id],
          some (GoError.containerError "start_dependency" selfId
            ("failed to start dependency " ++ d.id) (some e)))
      | none =>
        let r := startDeps selfId rest
        (Ev.depStart d.id :: r.1, r.2)

/-- `TestcontainerAppContainer.Start` (app_container.go lines 39-61): start
dependencies first; on success create the testcontainer, then start it.
Returns the trace of calls made and the overall result. -/
def appStart (t : AppContainer) : List Ev × Option GoError :=
  match startDeps t.id t.deps with
  | (tr, some e) => (tr, some e)
  | (tr, none) =>
    match t.createResult with
    | some e => (tr ++ [Ev.createPrimary], some e)
    | none => (tr ++ [Ev.createPrimary, Ev.primaryStart], t.primaryStartResult)

/-- The dependency loop of `TestcontainerAppContainer.Stop`
(app_container.go lines 140-148), applied to the reversed dependency list:
each running dependency's `Stop` is called; a failure is skipped with
`continue` (the error is discarded), so the trace does not depend on the
stop outcomes and no error escapes the loop. -/
def stopDeps : List Dep → List Ev
  | [] => []
  | d :: rest => (if d.isRunning then [Ev.depStop d.id] else []) ++ stopDeps rest

/-- `TestcontainerAppContainer.Stop` (app_container.go lines 133-151): stop
the main container first, propagating its error; then stop dependencies in
reverse order, ignoring their failures, and return nil. -/
def appStop (t : AppContainer) : List Ev × Option GoError :=
  match t.primaryStopResult with
  | some e => ([Ev.primaryStop], some e)
  | none => (Ev.primaryStop :: stopDeps t.deps.reverse, none)

/-! ## Docker container wrapper (`internal/infrastructure/docker`) -/

/-- The underlying `testcontainers.Container` handle as the wrapper observes
it: what `State(ctx).Running` reports and what `Stop(ctx, nil)` would return
(`none` = nil error, `some msg` = the runtime's error). -/
structure RuntimeHandle where
  running : Bool
  stopResult : Option String

/-- A `DockerContainer` (docker container wrapper): its configured id and the
optional runtime handle (`nil` until `SetContainer` is called, i.e. until the
container was created). -/
structure DockerContainer where
  id : String
  container : Option RuntimeHandle

/-- `DockerContainer.IsRunning` (part_005 lines 104-116): false when the
handle is nil, otherwise what the runtime's `State` reports. -/
def DockerContainer.running (d : DockerContainer) : Bool :=
  match d.container with
  | none => false
  | some h => h.running

/-- `DockerContainer.Stop` (part_005 lines 81-101): a nil handle yields a
`ContainerError` with operation `stop` and message `container not
initialized`; a runtime failure yields a `ContainerError` with message
`failed to stop container` wrapping the runtime's error; otherwise nil. -/
def DockerContainer.stop (d : DockerContainer) : Option GoError :=
  match d.container with
  | none => some (GoError.containerError "stop" d.id "container not initialized" none)
  | some h =>
    match h.stopResult with
    | some e =>
      some (GoError.containerError "stop" d.id "failed to stop container"
        (some (GoError.errorf e)))
    | none => none

/-! ## Lifecycle manager (`ContainerLifecycleManager`, part_005) -/

/-- A registered container as `StopAll` observes it: identity, whether it is
running, and the error its `Stop` would report (`none` = success).  `StopAll`
iterates a Go map, whose order is unspecified; the list order here stands for
one iteration order, and the theorems quantify over all lists. -/
structure ManagedContainer where
  id : String
  isRunning : Bool
  stopResult : Option GoError

/-- The error `StopAll` records for a failed stop of container `c`
(part_005 lines 409-414). -/
def stopAllErr (c : ManagedContainer) (e : GoError) : GoError :=
  GoError.containerError "stop_all" c.id "failed to stop container during stop all" (some e)

/-- The loop of `ContainerLifecycleManager.StopAll` (part_005 lines 404-419)
with the `lastErr` accumulator made explicit: every running container's
`Stop` is attempted; a failure replaces `lastErr` but never aborts the loop.
Returns the ids on which `Stop` was attempted, and the final `lastErr`. -/
def stopAllLoop (lastErr : Option GoError) : List ManagedContainer → List String × Option GoError
  | [] => ([], lastErr)
  | c :: rest =>
    if c.isRunning then
      match c.stopResult with
      | some e =>
        let r := stopAllLoop (some (stopAllErr c e)) rest
        (c.id :: r.1, r.2)
      | none =>
        let r := stopAllLoop lastErr rest
        (c.id :: r.1, r.2)
    else stopAllLoop lastErr rest

/-- `ContainerLifecycleManager.StopAll`: the loop started with `lastErr = nil`. -/
def stopAll (cs : List ManagedContainer) : List String × Option GoError :=
  stopAllLoop none cs

/-! ## Port tracker (`PortManager`, part_005) -/

/-- The `allocatedPorts` map (`map[string][]int`) as an association list with
at most one entry per container id (the operations below preserve this when
starting from the empty map, mirroring Go map semantics). -/
abbrev PortMap := List (String × List Nat)

/-- Lookup of a container's entry in the map (`p.allocatedPorts[containerID]`
together with its `exists` flag). -/
def portLookup : PortMap → String → Option (List Nat)
  | [], _ => none
  | (k, v) :: rest, id => if k = id then some v else portLookup rest id

/-- `PortManager.AllocatePort` (part_005 lines 305-310): create the entry if
absent, then append the port to the container's list.  No exclusivity check
is performed. -/
def AllocatePort (m : PortMap) (containerID : String) (port : Nat) : PortMap :=
  match portLookup m containerID with
  | some _ => m.map (fun e => if e.1 = containerID then (e.1, e.2 ++ [port]) else e)
  | none => m ++ [(containerID, [port])]

/-- Removal of the first occurrence of `port`, as the loop of
`PortManager.DeallocatePort` does with `append(ports[:i], ports[i+1:]...)`
and `break` (part_005 lines 319-324). -/
def removeFirstPort : List Nat → Nat → List Nat
  | [], _ => []
  | p :: ps, q => if p = q then ps else p :: removeFirstPort ps q

/-- `PortManager.DeallocatePort` (part_005 lines 313-325): no-op when the
container has no entry, otherwise drop the first occurrence of the port. -/
def DeallocatePort (m : PortMap) (containerID : String) (port : Nat) : PortMap :=
  match portLookup m containerID with
  | none => m
  | some _ =>
    m.map (fun e => if e.1 = containerID then (e.1, removeFirstPort e.2 port) else e)

/-- `PortManager.GetAllocatedPorts` (part_005 lines 328-334): the container's
list, or `[]` when absent. -/
def GetAllocatedPorts (m : PortMap) (containerID : String) : List Nat :=
  match portLookup m containerID with
  | some ps => ps
  | none => []

/-- `PortManager.DeallocateAllPorts` (part_005 lines 337-339): `delete` of
the container's map entry. -/
def DeallocateAllPorts (m : PortMap) (containerID : String) : PortMap :=
  m.filter (fun e => !(e.1 = containerID : Bool))

/-- `PortManager.IsPortAllocated` (part_005 lines 342-351): the two nested
loops scanning every container's list for the port. -/
def IsPortAllocated (m : PortMap) (port : Nat) : Bool :=
  m.any fun e => e.2.any fun allocatedPort => allocatedPort = port

/-! ## Health monitoring engine (`pkg/health`, part_006) -/

/-- `health.Status`: `healthy`, `unhealthy` or `unknown`. -/
inductive Status where
  | healthy
  | unhealthy
  | unknown
deriving DecidableEq, Repr

/-- `health.CheckResult`: the status of one check execution and the error
string recorded as diagnostic cause (`""` when the check succeeded, as the
Go zero value of the `Error` field).  The wall-clock `Duration` and
`Timestamp` fields are elided. -/
structure CheckResult where
  status : Status
  error : String
deriving DecidableEq, Repr

/-- A registered `health.HealthCheck`: its name and, for each check pass
(indexed by the number of passes run before it), the outcome of
`Check(checkCtx, target)` run under the check's own timeout context —
`none` = nil error, `some msg` = an error with message `msg`.  The
`Interval()` / `Timeout()` durations themselves are wall-clock quantities
folded into this observed outcome. -/
structure HealthCheck where
  name : String
  check : Nat → Option String

/-- `health.HealthStatus`: overall verdict plus the per-check result map
(`map[string]CheckResult`, modelled as an association list written by
`mapSet`).  The `Timestamp` field is elided. -/
structure HealthStatus where
  overall : Status
  checks : List (String × CheckResult)
deriving DecidableEq, Repr

/-- Go map assignment `results[name] = r`: overwrite the existing entry for
the key or add a new one. -/
def mapSet (m : List (String × CheckResult)) (k : String) (v : CheckResult) :
    List (String × CheckResult) :=
  match m with
  | [] => [(k, v)]
  | (k', v') :: rest => if k' = k then (k, v) :: rest else (k', v') :: mapSet rest k v

/-- `HealthMonitor.executeCheck` (part_006 lines 195-217) at pass `t`: the
result is `unhealthy` with the error string recorded exactly when
`check.Check` returned an error, else `healthy`. -/
def executeCheck (c : HealthCheck) (t : Nat) : CheckResult :=
  match c.check t with
  | some e => { status := Status.unhealthy, error := e }
  | none => { status := Status.healthy, error := "" }

/-- One iteration of the loop of `HealthMonitor.runHealthChecks`
(part_006 lines 173-180): record the check's result under its name and
clear the `overallHealthy` flag when the result is not healthy. -/
def runChecksStep (t : Nat) (acc : List (String × CheckResult) × Bool) (c : HealthCheck) :
    List (String × CheckResult) × Bool :=
  let r := executeCheck c t
  (mapSet acc.1 c.name r, if r.status = Status.healthy then acc.2 else false)

/-- `HealthMonitor.runHealthChecks` (part_006 lines 166-192) at pass `t`:
run every registered check, collect the results into a fresh map, and build
the whole snapshot — overall `healthy` when the flag survived every check,
else `unhealthy`. -/
def runHealthChecksAt (checks : List HealthCheck) (t : Nat) : HealthStatus :=
  let p := checks.foldl (runChecksStep t) ([], true)
  { overall := if p.2 then Status.healthy else Status.unhealthy, checks := p.1 }

/-- The initial `HealthStatus` built by `NewHealthMonitor`
(part_006 lines 67-71): overall `unknown`, empty result map. -/
def initialStatus : HealthStatus :=
  { overall := Status.unknown, checks := [] }

/-- A `HealthMonitor`'s mutable state: the registered checks, the current
status snapshot, the number of check passes run so far (the index fed to the
time-varying check outcomes), and the `running` flag. -/
structure Monitor where
  checks : List HealthCheck
  status : HealthStatus
  tick : Nat
  running : Bool

/-- `NewHealthMonitor` (part_006 lines 62-74): no checks, `unknown` status,
not running. -/
def newMonitor : Monitor :=
  { checks := [], status := initialStatus, tick := 0, running := false }

/-- `HealthMonitor.Status` (part_006 lines 119-124): return the current
snapshot. -/
def Monitor.statusNow (m : Monitor) : HealthStatus :=
  m.status

/-- The state transitions a `HealthMonitor` undergoes.  `add` is `AddCheck`
(append to the check slice); `pass` is one execution of `runHealthChecks`
— performed by `Start`'s synchronous first pass, by the `monitoringLoop`
ticker, and by each `WaitForHealthy` poll — which replaces the whole
snapshot; `setRunning` covers the `running` flag writes of `Start`/`Stop`. -/
inductive MonitorStep : Monitor → Monitor → Prop
  | add (m : Monitor) (c : HealthCheck) :
      MonitorStep m { m with checks := m.checks ++ [c] }
  | pass (m : Monitor) :
      MonitorStep m
        { m with status := runHealthChecksAt m.checks m.tick, tick := m.tick + 1 }
  | setRunning (m : Monitor) (b : Bool) :
      MonitorStep m { m with running := b }

/-- Monitor states reachable from `NewHealthMonitor` by the operations
above. -/
inductive MonitorReachable : Monitor → Prop
  | init : MonitorReachable newMonitor
  | step {m m' : Monitor} : MonitorReachable m → MonitorStep m m' → MonitorReachable m'

/-- `HealthMonitor.WaitForHealthy` (part_006 lines 127-146), with the ticks
that fire before the deadline counted by `fuel` and the pass counter `t`
made explicit: on each tick run the checks and succeed when the fresh
snapshot's overall status is healthy; once the deadline context is done,
return the error `timeout waiting for healthy status` built by
`fmt.Errorf`. -/
def waitForHealthy (checks : List HealthCheck) : Nat → Nat → Option GoError
  | _, 0 => some (GoError.errorf "timeout waiting for healthy status")
  | t, fuel + 1 =>
    if (runHealthChecksAt checks t).overall = Status.healthy then none
    else waitForHealthy checks (t + 1) fuel

/-! ## Concrete instances used to exercise the theorems -/

/-- A dependency that is already stopped and would start cleanly. -/
def depD1 : Dep := { id := "d1", isRunning := false, startResult := none, stopResult := none }

/-- A dependency whose `Start` fails with `image not found`. -/
def depD2 : Dep :=
  { id := "d2", isRunning := false,
    startResult := some (GoError.errorf "image not found"), stopResult := none }

/-- A dependency listed after the failing one; its `Start` would succeed. -/
def depD3 : Dep := { id := "d3", isRunning := false, startResult := none, stopResult := none }

/-- An app container whose second dependency fails to start. -/
def appFailingDep : AppContainer :=
  { id := "app", deps := [depD1, depD2, depD3],
    createResult := none, primaryStartResult := none, primaryStopResult := none }

/-- A running dependency whose `Stop` fails with a transport error. -/
def depStopFail (n : String) : Dep :=
  { id := n, isRunning := true, startResult := none,
    stopResult := some (GoError.errorf "transport error") }

/-- A running dependency whose `Stop` succeeds. -/
def depStopOk (n : String) : Dep :=
  { id := n, isRunning := true, startResult := none, stopResult := none }

/-- An app container, all containers running, whose sole dependency fails to
stop. -/
def appDepStopFails : AppContainer :=
  { id := "app", deps := [depStopFail "d1"],
    createResult := none, primaryStartResult := none, primaryStopResult := none }

/-- An app container with three running dependencies, the middle one failing
to stop. -/
def appThreeDeps : AppContainer :=
  { id := "app", deps := [depStopOk "d1", depStopFail "d2", depStopOk "d3"],
    createResult := none, primaryStartResult := none, primaryStopResult := none }

/-- A managed container whose stop fails with error `e1`. -/
def mc1 : ManagedContainer :=
  { id := "m1", isRunning := true, stopResult := some (GoError.errorf "e1") }

/-- A managed container whose stop fails with error `e2`. -/
def mc2 : ManagedContainer :=
  { id := "m2", isRunning := true, stopResult := some (GoError.errorf "e2") }

/-- A managed container that stops cleanly. -/
def mc3 : ManagedContainer :=
  { id := "m3", isRunning := true, stopResult := none }

/-- Three managed containers for the lifecycle manager: the first and second
fail to stop, the third stops cleanly — the second failure is the last one
encountered. -/
def managedExample : List ManagedContainer := [mc1, mc2, mc3]

/-- A port map holding 8080 for container `a` and 9090 for container `b`. -/
def portExample : PortMap := [("a", [8080]), ("b", [9090])]

/-- The port map obtained by allocating the same port to two containers —
the tracker accepts this without complaint. -/
def doubleAlloc : PortMap := AllocatePort (AllocatePort [] "a" 80) "b" 80

/-- A check that always fails with diagnostic `boom`. -/
def boomCheck : HealthCheck := { name := "skeleton-health", check := fun _ => some "boom" }

/-- A check that always fails with diagnostic `bang`. -/
def bangCheck : HealthCheck := { name := "skeleton-health", check := fun _ => some "bang" }

/-- A check that always succeeds. -/
def okCheck : HealthCheck := { name := "skeleton-ok", check := fun _ => none }

/-- A never-started docker container. -/
def neverStarted : DockerContainer := { id := "c0", container := none }

/-- The fresh monitor after `AddCheck(boomCheck)`. -/
def monitorWithBoom : Monitor :=
  { newMonitor with checks := newMonitor.checks ++ [boomCheck] }

/-- That monitor after one check pass. -/
def monitorTicked : Monitor :=
  { monitorWithBoom with
    status := runHealthChecksAt monitorWithBoom.checks monitorWithBoom.tick,
    tick := monitorWithBoom.tick + 1 }

/-- The running stop failures `StopAll` records, in iteration order — the
specification-side description of the `lastErr` accumulation used to state
which error `StopAll` returns. -/
def stopFailures (cs : List ManagedContainer) : List GoError :=
  cs.filterMap fun c => if c.isRunning then c.stopResult.map (stopAllErr c) else none

/-- Port-tracker exclusivity: no port appears in two different containers'
allocation records. -/
def ExclusivePorts (m : PortMap) : Prop :=
  ∀ e1 ∈ m, ∀ e2 ∈ m, ∀ p : Nat, p ∈ e1.2 → p ∈ e2.2 → e1.1 = e2.1

/-- One guarded port-tracker operation: `Allocate` is applied only to a port
the tracker does not currently report allocated — the discipline the spec's
exclusivity invariant presupposes — while both deallocation operations are
unrestricted. -/
inductive PortOp : PortMap → PortMap → Prop
  | alloc (m : PortMap) (id : String) (p : Nat) (h : IsPortAllocated m p = false) :
      PortOp m (AllocatePort m id p)
  | dealloc (m : PortMap) (id : String) (p : Nat) : PortOp m (DeallocatePort m id p)
  | deallocAll (m : PortMap) (id : String) : PortOp m (DeallocateAllPorts m id)

/-- Port maps reachable from the empty tracker of `NewPortManager` by
guarded operations. -/
inductive PortReachable : PortMap → Prop
  | init : PortReachable []
  | step {m m' : PortMap} : PortReachable m → PortOp m m' → PortReachable m'

/-! ## Theorems -/

theorem startDeps_all_ok (selfId : String) (ds : List Dep)
    (h : ∀ d ∈ ds, d.isRunning = true ∨ d.startResult = none) :
    startDeps selfId ds =
      ((ds.filter fun x => !x.isRunning).map fun x => Ev.depStart x.id, none) := by
  induction ds with
  | nil => rfl
  | cons d rest ih =>
    have hd := h d (List.mem_cons_self d rest)
    have hrest : ∀ d' ∈ rest, d'.isRunning = true ∨ d'.startResult = none :=
      fun d' hd' => h d' (List.mem_cons_of_mem d hd')
    cases hb : d.isRunning with
    | true => simp [startDeps, hb, ih hrest]
    | false =>
      have hnone : d.startResult = none := by
        rcases hd with h1 | h1
        · rw [hb] at h1; exact absurd h1 (by simp)
        · exact h1
      simp [startDeps, hb, hnone, ih hrest]

theorem startDeps_first_fail (selfId : String) (pre post : List Dep) (d : Dep) (e : GoError)
    (hpre : ∀ d' ∈ pre, d'.isRunning = true ∨ d'.startResult = none)
    (hrun : d.isRunning = false) (hfail : d.startResult = some e) :
    startDeps selfId (pre ++ d :: post) =
      (((pre.filter fun x => !x.isRunning).map fun x => Ev.depStart x.id) ++ [Ev.depStart d.id],
        some (GoError.containerError "start_dependency" selfId
          ("failed to start dependency " ++ d.id) (some e))) := by
  induction pre with
  | nil => simp [startDeps, hrun, hfail]
  | cons d' rest ih =>
    have hd' := hpre d' (List.mem_cons_self d' rest)
    have hrest : ∀ x ∈ rest, x.isRunning = true ∨ x.startResult = none :=
      fun x hx => hpre x (List.mem_cons_of_mem d' hx)
    cases hb : d'.isRunning with
    | true => simp [startDeps, hb, ih hrest]
    | false =>
      have hnone : d'.startResult = none := by
        rcases hd' with h1 | h1
        · rw [hb] at h1; exact absurd h1 (by simp)
        · exact h1
      simp [startDeps, hb, hnone, ih hrest]

/-- C1: `TestcontainerAppContainer.Start` starts each not-already-running
dependency in listed order before creating or starting the primary; on the
first dependency failure it returns at once with a `start_dependency`
`ContainerError` naming that dependency and wrapping its error, and neither
the primary nor any remaining dependency is created or started. -/
theorem appStart_dep_order_fail_fast (t : AppContainer) :
    ((∀ d ∈ t.deps, d.isRunning = true ∨ d.startResult = none) → t.createResult = none →
      appStart t =
        (((t.deps.filter fun x => !x.isRunning).map fun x => Ev.depStart x.id)
            ++ [Ev.createPrimary, Ev.primaryStart], t.primaryStartResult))
    ∧
    (∀ pre d post e, t.deps = pre ++ d :: post →
      (∀ d' ∈ pre, d'.isRunning = true ∨ d'.startResult = none) →
      d.isRunning = false → d.startResult = some e →
      appStart t =
        (((pre.filter fun x => !x.isRunning).map fun x => Ev.depStart x.id)
            ++ [Ev.depStart d.id],
          some (GoError.containerError "start_dependency" t.id
            ("failed to start dependency " ++ d.id) (some e)))
      ∧ Ev.createPrimary ∉ (appStart t).1 ∧ Ev.primaryStart ∉ (appStart t).1
      ∧ ∀ p ∈ post, p.id ∉ pre.map Dep.id → p.id ≠ d.id →
          Ev.depStart p.id ∉ (appStart t).1) := by
  constructor
  · intro hall hcreate
    unfold appStart
    rw [startDeps_all_ok t.id t.deps hall, hcreate]
  · intro pre d post e hdeps hpre hrun hfail
    have hsd := startDeps_first_fail t.id pre post d e hpre hrun hfail
    have happ : appStart t =
        (((pre.filter fun x => !x.isRunning).map fun x => Ev.depStart x.id)
            ++ [Ev.depStart d.id],
          some (GoError.containerError "start_dependency" t.id
            ("failed to start dependency " ++ d.id) (some e))) := by
      unfold appStart
      rw [hdeps, hsd]
    refine ⟨happ, ?_, ?_, ?_⟩
    · rw [happ]; simp
    · rw [happ]; simp
    · intro p _ hpid hpd
      rw [happ]
      simp only [List.mem_append, List.mem_map, List.mem_singleton, not_or]
      constructor
      · rintro ⟨x, hx, hxe⟩
        have hxpre : x ∈ pre := (List.mem_filter.mp hx).1
        have : x.id = p.id := by
          have := hxe
          injection this
        exact hpid (this ▸ List.mem_map_of_mem Dep.id hxpre)
      · intro hcontra
        have : p.id = d.id := by injection hcontra
        exact hpd this

/-- Witness for C1: on a container with dependencies `d1`, `d2`, `d3` where
`d2` fails with `image not found`, `Start` starts `d1` then `d2`, returns
the wrapped error naming `d2`, and never creates or starts the primary. -/
theorem appStart_dep_order_fail_fast_witness :
    appStart appFailingDep =
      ([Ev.depStart "d1", Ev.depStart "d2"],
        some (GoError.containerError "start_dependency" "app"
          ("failed to start dependency " ++ "d2") (some (GoError.errorf "image not found"))))
    ∧ Ev.createPrimary ∉ (appStart appFailingDep).1
    ∧ Ev.primaryStart ∉ (appStart appFailingDep).1 := by
  have hpre : ∀ d' ∈ [depD1], d'.isRunning = true ∨ d'.startResult = none := by
    intro d' hd'
    have : d' = depD1 := by simpa using hd'
    subst this
    exact Or.inr rfl
  have h := (appStart_dep_order_fail_fast appFailingDep).2 [depD1] depD2 [depD3]
    (GoError.errorf "image not found") rfl hpre rfl rfl
  exact ⟨h.1, h.2.1, h.2.2.1⟩

theorem stopDeps_eq (ds : List Dep) :
    stopDeps ds = (ds.filter fun d => d.isRunning).map fun d => Ev.depStop d.id := by
  induction ds with
  | nil => rfl
  | cons d rest ih => cases hb : d.isRunning <;> simp [stopDeps, hb, ih]

/-- C3: `TestcontainerAppContainer.Stop` stops the primary first and then
stops the (running) dependencies in reverse listed order; the stop trace does
not depend on the dependencies' stop outcomes, so a dependency stop failure
never prevents the remaining dependencies' `Stop` from being attempted. -/
theorem appStop_primary_first_reverse_deps (t : AppContainer)
    (hp : t.primaryStopResult = none) :
    (appStop t).1 =
      Ev.primaryStop ::
        ((t.deps.reverse.filter fun d => d.isRunning).map fun d => Ev.depStop d.id)
    ∧ (∀ d ∈ t.deps, d.isRunning = true → Ev.depStop d.id ∈ (appStop t).1)
    ∧ ((∀ d ∈ t.deps, d.isRunning = true) →
        (appStop t).1 = Ev.primaryStop :: (t.deps.map fun d => Ev.depStop d.id).reverse) := by
  have htr : (appStop t).1 =
      Ev.primaryStop ::
        ((t.deps.reverse.filter fun d => d.isRunning).map fun d => Ev.depStop d.id) := by
    simp [appStop, hp, stopDeps_eq]
  refine ⟨htr, ?_, ?_⟩
  · intro d hd hrun
    rw [htr]
    refine List.mem_cons_of_mem _ ?_
    exact List.mem_map_of_mem _ (List.mem_filter.mpr ⟨List.mem_reverse.mpr hd, hrun⟩)
  · intro hall
    rw [htr]
    have hfil : t.deps.reverse.filter (fun d => d.isRunning) = t.deps.reverse := by
      refine List.filter_eq_self.mpr ?_
      intro d hd
      exact hall d (List.mem_reverse.mp hd)
    rw [hfil, List.map_reverse]

/-- Witness for C3: with running dependencies `d1`, `d2`, `d3` where `d2`
fails to stop, the stop trace is exactly primary, `d3`, `d2`, `d1`. -/
theorem appStop_primary_first_reverse_deps_witness :
    (appStop appThreeDeps).1 =
      [Ev.primaryStop, Ev.depStop "d3", Ev.depStop "d2", Ev.depStop "d1"]
    ∧ Ev.depStop "d2" ∈ (appStop appThreeDeps).1 := by
  have h := appStop_primary_first_reverse_deps appThreeDeps rfl
  have hall : ∀ d ∈ appThreeDeps.deps, d.isRunning = true := by
    intro d hd
    simp only [appThreeDeps, List.mem_cons, List.not_mem_nil, or_false] at hd
    rcases hd with rfl | rfl | rfl <;> rfl
  refine ⟨?_, ?_⟩
  · exact h.2.2 hall
  · exact h.2.1 (depStopFail "d2")
      (List.mem_cons_of_mem _ (List.mem_cons_self _ _)) rfl

/-- Counterexample to C2 as stated: on an orchestrated app container whose
sole (running) dependency fails to stop, `Stop` attempts the dependency's
stop but still returns nil — not the claimed non-nil last stop error. -/
theorem appStop_swallows_dep_stop_error :
    (appStop appDepStopFails).2 = none
    ∧ Ev.depStop "d1" ∈ (appStop appDepStopFails).1
    ∧ (appDepStopFails.deps.all fun d => d.isRunning && d.stopResult.isSome) = true := by
  refine ⟨rfl, ?_, rfl⟩
  decide

theorem stopAllLoop_fst (cs : List ManagedContainer) :
    ∀ acc, (stopAllLoop acc cs).1 = (cs.filter fun c => c.isRunning).map fun c => c.id := by
  induction cs with
  | nil => intro acc; rfl
  | cons c rest ih =>
    intro acc
    cases hb : c.isRunning with
    | true => cases hr : c.stopResult <;> simp [stopAllLoop, hb, hr, ih]
    | false => simp [stopAllLoop, hb, ih]

theorem stopAllLoop_snd (cs : List ManagedContainer) :
    ∀ acc, (stopAllLoop acc cs).2 = (stopFailures cs).foldl (fun _ e => some e) acc := by
  induction cs with
  | nil => intro acc; rfl
  | cons c rest ih =>
    intro acc
    cases hb : c.isRunning with
    | true =>
      cases hr : c.stopResult with
      | none => simp [stopAllLoop, stopFailures, hb, hr, List.filterMap_cons, ih]
      | some e => simp [stopAllLoop, stopFailures, hb, hr, List.filterMap_cons, ih]
    | false => simp [stopAllLoop, stopFailures, hb, List.filterMap_cons, ih]

theorem foldl_some_isSome (l : List GoError) :
    ∀ x : GoError, (l.foldl (fun _ e => some e) (some x)).isSome = true := by
  induction l with
  | nil => intro x; rfl
  | cons y rest ih => intro x; simpa [List.foldl_cons] using ih y

/-- C2 amended: the app-container orchestrator swallows dependency stop
errors (see the counterexample); it is `ContainerLifecycleManager.StopAll`
that attempts to stop every running registered container, returns nil
exactly when no stop failed, and otherwise returns the last stop error
encountered, wrapped in a `stop_all` `ContainerError` naming the failed
container. -/
theorem stopAll_best_effort_last_error (cs : List ManagedContainer) :
    (stopAll cs).1 = ((cs.filter fun c => c.isRunning).map fun c => c.id)
    ∧ ((stopAll cs).2 = none ↔ stopFailures cs = [])
    ∧ (∀ pre c post e, cs = pre ++ c :: post → c.isRunning = true →
        c.stopResult = some e → stopFailures post = [] →
        (stopAll cs).2 = some (stopAllErr c e)) := by
  refine ⟨stopAllLoop_fst cs none, ?_, ?_⟩
  · rw [stopAll, stopAllLoop_snd cs none]
    cases hl : stopFailures cs with
    | nil => simp
    | cons x l =>
      simp only [List.foldl_cons]
      constructor
      · intro hcontra
        have := foldl_some_isSome l x
        rw [hcontra] at this
        exact absurd this (by simp)
      · intro hcontra
        exact absurd hcontra (by simp)
  · intro pre c post e hcs hrun hfail hpost
    subst hcs
    rw [stopAll, stopAllLoop_snd _ none]
    have hdecomp : stopFailures (pre ++ c :: post) =
        stopFailures pre ++ [stopAllErr c e] := by
      simp [stopFailures, List.filterMap_append, List.filterMap_cons, hrun, hfail]
      simpa [stopFailures] using hpost
    rw [hdecomp, List.foldl_append]
    rfl

/-- Witness for C2 (amended): stopping `m1` (fails with `e1`), `m2` (fails
with `e2`), `m3` (succeeds) attempts all three stops and returns the wrapped
`e2` — the last error encountered. -/
theorem stopAll_best_effort_last_error_witness :
    (stopAll managedExample).1 = ["m1", "m2", "m3"]
    ∧ (stopAll managedExample).2 =
        some (GoError.containerError "stop_all" "m2"
          "failed to stop container during stop all" (some (GoError.errorf "e2"))) := by
  have h := stopAll_best_effort_last_error managedExample
  exact ⟨h.1, h.2.2 [mc1] mc2 [mc3] (GoError.errorf "e2") rfl rfl rfl rfl⟩

theorem executeCheck_healthy_iff (c : HealthCheck) (t : Nat) :
    (executeCheck c t).status = Status.healthy ↔ c.check t = none := by
  cases h : c.check t <;> simp [executeCheck, h]

theorem runChecks_flag (t : Nat) (checks : List HealthCheck) :
    ∀ m b, ((checks.foldl (runChecksStep t) (m, b)).2 = true ↔
      (b = true ∧ ∀ c ∈ checks, (executeCheck c t).status = Status.healthy)) := by
  induction checks with
  | nil => intro m b; simp
  | cons c rest ih =>
    intro m b
    rw [List.foldl_cons]
    by_cases hc : (executeCheck c t).status = Status.healthy
    · simp only [runChecksStep, if_pos hc]
      rw [ih]
      simp only [List.mem_cons]
      constructor
      · rintro ⟨hb, hall⟩
        exact ⟨hb, fun c' hc' => hc'.elim (fun he => he ▸ hc) (hall c')⟩
      · rintro ⟨hb, hall⟩
        exact ⟨hb, fun c' hc' => hall c' (Or.inr hc')⟩
    · simp only [runChecksStep, if_neg hc]
      rw [ih]
      simp only [List.mem_cons]
      constructor
      · rintro ⟨hb, _⟩
        exact absurd hb (by simp)
      · rintro ⟨_, hall⟩
        exact absurd (hall c (Or.inl rfl)) hc

/-- C4: on every check pass, a check's result is healthy exactly when its
`Check` call returns no error (otherwise unhealthy with the error string
recorded), and the pass's overall status is healthy iff every registered
check succeeded — otherwise it is unhealthy, never unknown. -/
theorem health_aggregation_is_and (checks : List HealthCheck) (t : Nat) :
    ((runHealthChecksAt checks t).overall = Status.healthy ↔
      ∀ c ∈ checks, c.check t = none)
    ∧ (runHealthChecksAt checks t).overall ≠ Status.unknown
    ∧ (∀ c : HealthCheck, (executeCheck c t).status = Status.healthy ↔ c.check t = none)
    ∧ (∀ c : HealthCheck, ∀ e, c.check t = some e →
        executeCheck c t = { status := Status.unhealthy, error := e }) := by
  have hov : (runHealthChecksAt checks t).overall = Status.healthy ↔
      (checks.foldl (runChecksStep t) ([], true)).2 = true := by
    unfold runHealthChecksAt
    cases hf : (checks.foldl (runChecksStep t) ([], true)).2 <;> simp [hf]
  refine ⟨?_, ?_, fun c => executeCheck_healthy_iff c t, fun c e he => by simp [executeCheck, he]⟩
  · rw [hov, runChecks_flag t checks [] true]
    constructor
    · rintro ⟨_, hall⟩ c hc
      exact (executeCheck_healthy_iff c t).mp (hall c hc)
    · intro hall
      exact ⟨rfl, fun c hc => (executeCheck_healthy_iff c t).mpr (hall c hc)⟩
  · unfold runHealthChecksAt
    cases hf : (checks.foldl (runChecksStep t) ([], true)).2 <;> simp [hf]

/-- Witness for C4: with one passing and one failing check the pass is
unhealthy; with only the passing check it is healthy; the failing check's
result records the diagnostic. -/
theorem health_aggregation_is_and_witness :
    (runHealthChecksAt [okCheck, boomCheck] 0).overall = Status.unhealthy
    ∧ (runHealthChecksAt [okCheck] 0).overall = Status.healthy
    ∧ executeCheck boomCheck 0 = { status := Status.unhealthy, error := "boom" } := by
  have h2 := health_aggregation_is_and [okCheck, boomCheck] 0
  have h1 := health_aggregation_is_and [okCheck] 0
  refine ⟨?_, ?_, h2.2.2.2 boomCheck "boom" rfl⟩
  · cases hov : (runHealthChecksAt [okCheck, boomCheck] 0).overall with
    | healthy =>
      have hall := h2.1.mp hov
      have := hall boomCheck (List.mem_cons_of_mem _ (List.mem_cons_self _ _))
      exact absurd this (by simp [boomCheck])
    | unhealthy => rfl
    | unknown => exact absurd hov h2.2.1
  · refine h1.1.mpr ?_
    intro c hc
    have : c = okCheck := by simpa using hc
    subst this
    rfl

/-- C10: a monitor with zero registered checks computes overall healthy on
every pass (the AND over no checks is vacuously true), so `WaitForHealthy`
succeeds at its first poll, even though the monitor's initial status is
unknown. -/
theorem empty_checks_vacuously_healthy (t fuel : Nat) :
    (runHealthChecksAt [] t).overall = Status.healthy
    ∧ waitForHealthy [] t (fuel + 1) = none
    ∧ newMonitor.statusNow.overall = Status.unknown := by
  refine ⟨rfl, ?_, rfl⟩
  simp [waitForHealthy, runHealthChecksAt]

/-- Counterexample to C5 as stated: `WaitForHealthy` on a monitor whose only
check always fails with diagnostic `boom` returns the fixed
`timeout waiting for healthy status` error; the identical error comes back
when the diagnostic is `bang`, and the message does not contain the
diagnostic — the returned error does not carry the last-seen per-check
failures. -/
theorem waitForHealthy_timeout_masks_diagnostics :
    waitForHealthy [boomCheck] 0 5 =
      some (GoError.errorf "timeout waiting for healthy status")
    ∧ waitForHealthy [bangCheck] 0 5 = waitForHealthy [boomCheck] 0 5
    ∧ "timeout waiting for healthy status".data.contains 'b' = false := by
  refine ⟨rfl, rfl, by decide⟩

/-- C5 amended: whenever no polled pass is healthy before the deadline,
`WaitForHealthy` returns a timeout-kind error — but it is the fixed
`fmt.Errorf` message `timeout waiting for healthy status`, which does not
carry the per-check failure diagnostics. -/
theorem waitForHealthy_timeout_error (checks : List HealthCheck) :
    ∀ t0 fuel, (∀ t, t0 ≤ t → t < t0 + fuel →
        (runHealthChecksAt checks t).overall ≠ Status.healthy) →
      waitForHealthy checks t0 fuel =
        some (GoError.errorf "timeout waiting for healthy status") := by
  intro t0 fuel
  induction fuel generalizing t0 with
  | zero => intro _; rfl
  | succ n ih =>
    intro h
    have h0 : (runHealthChecksAt checks t0).overall ≠ Status.healthy :=
      h t0 (Nat.le_refl t0) (by omega)
    rw [waitForHealthy, if_neg h0]
    exact ih (t0 + 1) (fun t ht1 ht2 => h t (by omega) (by omega))

/-- Witness for C5 (amended): the always-failing `boom` monitor times out
with the fixed error after three fruitless polls. -/
theorem waitForHealthy_timeout_error_witness :
    waitForHealthy [boomCheck] 0 3 =
      some (GoError.errorf "timeout waiting for healthy status") := by
  refine waitForHealthy_timeout_error [boomCheck] 0 3 ?_
  intro t _ _
  simp [runHealthChecksAt, runChecksStep, executeCheck, boomCheck]

/-- C6: every status value a reachable monitor holds — and hence everything
`Status()` ever returns — is either the initial unknown snapshot or the
complete snapshot of one single check pass; the snapshot is replaced
wholesale, never mixed from two passes. -/
theorem monitor_snapshot_wholesale (m : Monitor) (h : MonitorReachable m) :
    m.statusNow = initialStatus ∨ ∃ cs t, m.statusNow = runHealthChecksAt cs t := by
  induction h with
  | init => exact Or.inl rfl
  | step hr hstep ih =>
    cases hstep with
    | add c => exact ih
    | pass => exact Or.inr ⟨_, _, rfl⟩
    | setRunning b => exact ih

/-- Witness for C6: the monitor with the `boom` check after one pass holds a
single-pass snapshot (and the fresh monitor the initial one). -/
theorem monitor_snapshot_wholesale_witness :
    (monitorTicked.statusNow = initialStatus
      ∨ ∃ cs t, monitorTicked.statusNow = runHealthChecksAt cs t)
    ∧ (newMonitor.statusNow = initialStatus
      ∨ ∃ cs t, newMonitor.statusNow = runHealthChecksAt cs t) :=
  ⟨monitor_snapshot_wholesale monitorTicked
      (MonitorReachable.step
        (MonitorReachable.step MonitorReachable.init (MonitorStep.add newMonitor boomCheck))
        (MonitorStep.pass monitorWithBoom)),
    monitor_snapshot_wholesale newMonitor MonitorReachable.init⟩

theorem portLookup_deallocAll (m : PortMap) (id : String) :
    portLookup (DeallocateAllPorts m id) id = none := by
  induction m with
  | nil => rfl
  | cons e rest ih =>
    by_cases he : e.1 = id
    · simpa [DeallocateAllPorts, List.filter_cons, he] using ih
    · simpa [DeallocateAllPorts, List.filter_cons, he, portLookup] using ih

/-- C7: after `DeallocateAll(id)` the tracker reports no ports for `id`, and
a port held only by `id` is no longer reported allocated at all; in
particular `Allocate(id, 8080)` from empty then `DeallocateAll(id)` leaves
`IsAllocated(8080)` false. -/
theorem deallocateAll_total (m : PortMap) (id : String) :
    GetAllocatedPorts (DeallocateAllPorts m id) id = []
    ∧ (∀ p : Nat, (∀ e ∈ m, e.1 ≠ id → p ∉ e.2) →
        IsPortAllocated (DeallocateAllPorts m id) p = false)
    ∧ IsPortAllocated (DeallocateAllPorts (AllocatePort [] id 8080) id) 8080 = false := by
  refine ⟨?_, ?_, ?_⟩
  · unfold GetAllocatedPorts
    rw [portLookup_deallocAll]
  · intro p hp
    unfold IsPortAllocated DeallocateAllPorts
    rw [List.any_eq_false]
    intro e he
    have hmem := List.mem_filter.mp he
    have hne : e.1 ≠ id := by simpa using hmem.2
    have hnp : p ∉ e.2 := hp e hmem.1 hne
    intro hcontra
    rw [List.any_eq_true] at hcontra
    rcases hcontra with ⟨q, hq, hqe⟩
    exact hnp ((decide_eq_true_eq.mp hqe) ▸ hq)
  · simp [AllocatePort, portLookup, DeallocateAllPorts, IsPortAllocated, List.filter_cons]

/-- Witness for C7: deallocating all of container `a`'s ports in a tracker
holding 8080 for `a` and 9090 for `b` empties `a`'s record and makes 8080
unallocated. -/
theorem deallocateAll_total_witness :
    GetAllocatedPorts (DeallocateAllPorts portExample "a") "a" = []
    ∧ IsPortAllocated (DeallocateAllPorts portExample "a") 8080 = false := by
  have h := deallocateAll_total portExample "a"
  exact ⟨h.1, h.2.1 8080 (by decide)⟩

/-- Counterexample to C8 as stated: `AllocatePort` performs no exclusivity
check, so allocating port 80 to container `a` and then to container `b`
records the same port under both containers simultaneously. -/
theorem same_port_two_containers :
    GetAllocatedPorts doubleAlloc "a" = [80]
    ∧ GetAllocatedPorts doubleAlloc "b" = [80]
    ∧ "a" ≠ "b"
    ∧ IsPortAllocated doubleAlloc 80 = true := by
  refine ⟨rfl, rfl, by decide, rfl⟩

theorem isPortAllocated_false_forall {m : PortMap} {p : Nat}
    (h : IsPortAllocated m p = false) : ∀ e ∈ m, p ∉ e.2 := by
  intro e he hp
  unfold IsPortAllocated at h
  rw [List.any_eq_false] at h
  refine h e he ?_
  simp only [List.any_eq_true, decide_eq_true_eq]
  exact ⟨p, hp, rfl⟩

theorem removeFirstPort_subset (l : List Nat) (x : Nat) :
    ∀ q ∈ removeFirstPort l x, q ∈ l := by
  induction l with
  | nil => intro q hq; exact absurd hq (List.not_mem_nil q)
  | cons a rest ih =>
    intro q hq
    by_cases ha : a = x
    · simp only [removeFirstPort, if_pos ha] at hq
      exact List.mem_cons_of_mem _ hq
    · simp only [removeFirstPort, if_neg ha, List.mem_cons] at hq
      rcases hq with rfl | hq
      · exact List.mem_cons_self _ _
      · exact List.mem_cons_of_mem _ (ih q hq)

theorem exclusive_preserved {m m' : PortMap} (hex : ExclusivePorts m) (hop : PortOp m m') :
    ExclusivePorts m' := by
  cases hop with
  | alloc id p hguard =>
    have hfree : ∀ e ∈ m, p ∉ e.2 := isPortAllocated_false_forall hguard
    intro e1 he1 e2 he2 q hq1 hq2
    unfold AllocatePort at he1 he2
    cases hl : portLookup m id with
    | some ps =>
      rw [hl] at he1 he2
      rcases List.mem_map.mp he1 with ⟨a1, ha1, rfl⟩
      rcases List.mem_map.mp he2 with ⟨a2, ha2, rfl⟩
      have hk1 : (if a1.1 = id then (a1.1, a1.2 ++ [p]) else a1).1 = a1.1 := by
        by_cases h1 : a1.1 = id <;> simp [h1]
      have hk2 : (if a2.1 = id then (a2.1, a2.2 ++ [p]) else a2).1 = a2.1 := by
        by_cases h2 : a2.1 = id <;> simp [h2]
      rw [hk1, hk2]
      have hmem1 : q ∈ a1.2 ∨ (q = p ∧ a1.1 = id) := by
        by_cases h1 : a1.1 = id
        · simp only [if_pos h1] at hq1
          rcases List.mem_append.mp hq1 with hq | hq
          · exact Or.inl hq
          · exact Or.inr ⟨List.mem_singleton.mp hq, h1⟩
        · exact Or.inl (by simpa [if_neg h1] using hq1)
      have hmem2 : q ∈ a2.2 ∨ (q = p ∧ a2.1 = id) := by
        by_cases h2 : a2.1 = id
        · simp only [if_pos h2] at hq2
          rcases List.mem_append.mp hq2 with hq | hq
          · exact Or.inl hq
          · exact Or.inr ⟨List.mem_singleton.mp hq, h2⟩
        · exact Or.inl (by simpa [if_neg h2] using hq2)
      rcases hmem1 with hq1' | ⟨rfl, hid1⟩
      · rcases hmem2 with hq2' | ⟨rfl, hid2⟩
        · exact hex a1 ha1 a2 ha2 q hq1' hq2'
        · exact absurd hq1' (hfree a1 ha1)
      · rcases hmem2 with hq2' | ⟨_, hid2⟩
        · exact absurd hq2' (hfree a2 ha2)
        · rw [hid1, hid2]
    | none =>
      rw [hl] at he1 he2
      rcases List.mem_append.mp he1 with h1 | h1 <;>
        rcases List.mem_append.mp he2 with h2 | h2
      · exact hex e1 h1 e2 h2 q hq1 hq2
      · have : e2 = (id, [p]) := List.mem_singleton.mp h2
        subst this
        have : q = p := List.mem_singleton.mp hq2
        subst this
        exact absurd hq1 (hfree e1 h1)
      · have : e1 = (id, [p]) := List.mem_singleton.mp h1
        subst this
        have : q = p := List.mem_singleton.mp hq1
        subst this
        exact absurd hq2 (hfree e2 h2)
      · have he1' : e1 = (id, [p]) := List.mem_singleton.mp h1
        have he2' : e2 = (id, [p]) := List.mem_singleton.mp h2
        rw [he1', he2']
  | dealloc id p =>
    intro e1 he1 e2 he2 q hq1 hq2
    unfold DeallocatePort at he1 he2
    cases hl : portLookup m id with
    | none =>
      rw [hl] at he1 he2
      exact hex e1 he1 e2 he2 q hq1 hq2
    | some ps =>
      rw [hl] at he1 he2
      rcases List.mem_map.mp he1 with ⟨a1, ha1, rfl⟩
      rcases List.mem_map.mp he2 with ⟨a2, ha2, rfl⟩
      have hk1 : (if a1.1 = id then (a1.1, removeFirstPort a1.2 p) else a1).1 = a1.1 := by
        by_cases h1 : a1.1 = id <;> simp [h1]
      have hk2 : (if a2.1 = id then (a2.1, removeFirstPort a2.2 p) else a2).1 = a2.1 := by
        by_cases h2 : a2.1 = id <;> simp [h2]
      rw [hk1, hk2]
      have hm1 : q ∈ a1.2 := by
        by_cases h1 : a1.1 = id
        · simp only [if_pos h1] at hq1
          exact removeFirstPort_subset _ _ q hq1
        · simpa [if_neg h1] using hq1
      have hm2 : q ∈ a2.2 := by
        by_cases h2 : a2.1 = id
        · simp only [if_pos h2] at hq2
          exact removeFirstPort_subset _ _ q hq2
        · simpa [if_neg h2] using hq2
      exact hex a1 ha1 a2 ha2 q hm1 hm2
  | deallocAll id =>
    intro e1 he1 e2 he2 q hq1 hq2
    unfold DeallocateAllPorts at he1 he2
    exact hex e1 (List.mem_filter.mp he1).1 e2 (List.mem_filter.mp he2).1 q hq1 hq2

/-- C8 amended: the tracker itself never enforces exclusivity (see the
counterexample), but every state reachable by operation sequences that only
allocate ports not currently reported by `IsAllocated` keeps each port in at
most one container's record. -/
theorem ports_exclusive_of_guarded (m : PortMap) (h : PortReachable m) :
    ExclusivePorts m := by
  induction h with
  | init => intro e1 he1 e2 he2 q hq1 hq2; exact absurd he1 (List.not_mem_nil e1)
  | step hr hop ih => exact exclusive_preserved ih hop

/-- Witness for C8 (amended): the tracker state after one guarded allocation
of port 80 to container `a` is exclusive. -/
theorem ports_exclusive_of_guarded_witness : ExclusivePorts (AllocatePort [] "a" 80) :=
  ports_exclusive_of_guarded _
    (PortReachable.step PortReachable.init (PortOp.alloc [] "a" 80 rfl))

/-- C9: stopping a never-started container yields the clearly labeled
`container not initialized` `ContainerError`; a clean runtime stop yields
success; and every error `Stop` can return is a `ContainerError` naming the
container and the `stop` operation with one of the two specific messages —
never a generic error. -/
theorem dockerStop_no_generic_error (d : DockerContainer) :
    (d.container = none → DockerContainer.stop d =
        some (GoError.containerError "stop" d.id "container not initialized" none))
    ∧ (∀ h : RuntimeHandle, d.container = some h → h.stopResult = none →
        DockerContainer.stop d = none)
    ∧ (∀ e, DockerContainer.stop d = some e →
        ∃ msg cause, e = GoError.containerError "stop" d.id msg cause
          ∧ (msg = "container not initialized" ∨ msg = "failed to stop container")) := by
  refine ⟨?_, ?_, ?_⟩
  · intro hn
    simp [DockerContainer.stop, hn]
  · intro h hs hr
    simp [DockerContainer.stop, hs, hr]
  · intro e he
    cases hc : d.container with
    | none =>
      simp only [DockerContainer.stop, hc, Option.some.injEq] at he
      exact ⟨"container not initialized", none, he.symm, Or.inl rfl⟩
    | some hdl =>
      cases hs : hdl.stopResult with
      | none => simp [DockerContainer.stop, hc, hs] at he
      | some err =>
        simp only [DockerContainer.stop, hc, hs, Option.some.injEq] at he
        exact ⟨"failed to stop container", some (GoError.errorf err), he.symm, Or.inr rfl⟩

/-- Witness for C9: `Stop` on the never-started container returns exactly
the labeled `container not initialized` error. -/
theorem dockerStop_no_generic_error_witness :
    DockerContainer.stop neverStarted =
      some (GoError.containerError "stop" "c0" "container not initialized" none) :=
  (dockerStop_no_generic_error neverStarted).1 rfl

end Testkit
